import Mathlib

/-!
# Verification of the QBWC bridge (qbwc-bridge)

Shallow embedding of the QuickBooks Web Connector SOAP bridge:

* `qbxml.js` — the pure document renderer (`buildTimeTrackingAddXML`,
  `formatDate`, `formatDuration`, `escapeXml`);
* `index.js` — the protocol dispatcher and in-memory session registry
  (`handleAuthenticate`, `handleSendRequestXML`, `handleReceiveResponseXML`,
  `handleConnectionError`, `handleGetLastError`, `handleCloseConnection`).

Modelling conventions:

* JS numbers are modelled as exact rationals (`Rat`) where the code does
  arithmetic on decimal hours, and as `Int`/`Nat` where the code works with
  integers.  `Math.round x` is `⌊x + 1/2⌋` (JS rounds halves toward +∞),
  `Math.floor` of a quotient of naturals is `Nat` division, JS `%` on
  integers is `Int.tmod` (truncated, sign of the dividend) and
  `Math.floor (a / b)` on integers is `Int.fdiv`.
* The result of `receiveResponseXML` is a `JSNum`: the code can produce the
  JS values `Infinity`/`NaN` by dividing by a zero-length worklist.
* The external record store (`sheets.js` / the Apps Script adapter) is the
  environment: `getQBSyncPendingEntries` is a function from the number of
  fetch calls made so far to `Except String (List Entry)` (`.error` models a
  thrown exception), and calls to `markEntriesQBSynced` are recorded in a
  log of batches.
* The JS `Map` holding sessions is an association list with key-based
  `get`/`set`/`delete`; the code never iterates the map, so representation
  order is immaterial.
* Dates: the code stores `ClockIn` as a string and parses it with the JS
  `Date` constructor; the renderer only uses the calendar date, so `ClockIn`
  is modelled as the parsed calendar date (`QBDate`).
-/

/-- Calendar date as extracted from a parsed JS `Date`: `month` and `day` are
the 1-based values `getMonth() + 1` and `getDate()`. -/
structure QBDate where
  year : Nat
  month : Nat
  day : Nat
deriving DecidableEq

/-- One pending clock entry, with the fields `buildTimeTrackingAddXML` and the
dispatcher read.  `TotalHours` is the numeric value of
`parseFloat(entry.TotalHours) || 0`. -/
structure Entry where
  ID : String
  EmployeeName : String
  ClockIn : QBDate
  CustomerName : String
  JobName : String
  RequiresTicket : String
  TotalHours : Rat
  Notes : String
deriving DecidableEq

/-- JS `Math.round`: for finite arguments JS rounds halves toward +∞, which is
`⌊x + 1/2⌋`. -/
def mathRound (q : Rat) : Int :=
  ⌊q + 1 / 2⌋

/-- `formatDuration` from `qbxml.js`: `Math.round(hours * 60)` minutes, hour
component `Math.floor(totalMinutes / 60)` (float division then floor, i.e.
flooring division), minute component `totalMinutes % 60` (JS truncated
remainder); the minutes component is omitted when it is zero. -/
def formatDuration (hours : Rat) : String :=
  let totalMinutes := mathRound (hours * 60)
  let h := Int.fdiv totalMinutes 60
  let m := Int.tmod totalMinutes 60
  if m = 0 then
    "PT" ++ Int.repr h ++ "H"
  else
    "PT" ++ Int.repr h ++ "H" ++ Int.repr m ++ "M"

/-- Rounding half away from zero, as the specification's rounding policy
describes it.  Used only to compare the specified renderer against the
implemented one. -/
def roundHalfAwayFromZero (q : Rat) : Int :=
  if 0 ≤ q then ⌊q + 1 / 2⌋ else -⌊-q + 1 / 2⌋

/-- The duration renderer as the specification words it: identical to
`formatDuration` except that decimal hours are converted to whole minutes by
rounding `hours * 60` half away from zero. -/
def formatDurationSpec (hours : Rat) : String :=
  let totalMinutes := roundHalfAwayFromZero (hours * 60)
  let h := Int.fdiv totalMinutes 60
  let m := Int.tmod totalMinutes 60
  if m = 0 then
    "PT" ++ Int.repr h ++ "H"
  else
    "PT" ++ Int.repr h ++ "H" ++ Int.repr m ++ "M"

/-- `String(n).padStart(2, '0')` for the strings produced by `formatDate`. -/
def padStart2 (s : String) : String :=
  if s.length < 2 then String.mk (List.replicate (2 - s.length) '0') ++ s else s

/-- `formatDate` from `qbxml.js`: `YYYY-MM-DD` with zero-padded month and
day. -/
def formatDate (d : QBDate) : String :=
  Nat.repr d.year ++ "-" ++ padStart2 (Nat.repr d.month) ++ "-" ++ padStart2 (Nat.repr d.day)

/-- Per-character escaping.  `escapeXml` in the source applies five chained
global single-character replacements, `&` first; since no replacement string
contains a character that a later replacement rewrites, the chain equals this
single per-character substitution. -/
def escapeChar (c : Char) : List Char :=
  if c = '&' then "&amp;".data
  else if c = '<' then "&lt;".data
  else if c = '>' then "&gt;".data
  else if c = '"' then "&quot;".data
  else if c = '\'' then "&apos;".data
  else [c]

/-- `escapeXml` from `qbxml.js` (the five standard XML metacharacters). -/
def escapeXml (s : String) : String :=
  String.mk (s.data.map escapeChar).flatten

/-- The billable condition of `buildTimeTrackingAddXML`:
`entry.CustomerName && entry.CustomerName !== 'Shop' && entry.RequiresTicket === 'TRUE'`
(a JS string is truthy iff non-empty). -/
def billableCond (e : Entry) : Prop :=
  e.CustomerName ≠ "" ∧ e.CustomerName ≠ "Shop" ∧ e.RequiresTicket = "TRUE"

instance (e : Entry) : Decidable (billableCond e) := by
  unfold billableCond; infer_instance

/-- `buildTimeTrackingAddXML` from `qbxml.js`: renders one entry as a QBXML
`TimeTrackingAdd` request string, following the source's template and
conditional appends. -/
def buildTimeTrackingAddXML (entry : Entry) : String :=
  let txnDate := formatDate entry.ClockIn
  let totalHours := entry.TotalHours
  let duration := formatDuration totalHours
  let employeeName := escapeXml (if entry.EmployeeName = "" then "Unknown" else entry.EmployeeName)
  let notes :=
    (if entry.CustomerName ≠ "" ∧ entry.CustomerName ≠ "Shop" then
      ["Customer: " ++ entry.CustomerName] else []) ++
    (if entry.JobName ≠ "" then ["Job: " ++ entry.JobName] else []) ++
    (if entry.Notes ≠ "" then ["Notes: " ++ entry.Notes] else [])
  let notesText := escapeXml (String.intercalate " | " notes)
  let qbxml :=
    "<?xml version=\"1.0\" encoding=\"utf-8\"?>\n<?qbxml version=\"13.0\"?>\n<QBXML>\n  <QBXMLMsgsRq onError=\"stopOnError\">\n    <TimeTrackingAddRq>\n      <TimeTrackingAdd>\n        <TxnDate>"
      ++ txnDate ++
    "</TxnDate>\n        <EntityRef>\n          <FullName>"
      ++ employeeName ++
    "</FullName>\n        </EntityRef>\n        <Duration>"
      ++ duration ++
    "</Duration>"
  let qbxml := qbxml ++
    (if billableCond entry then
      "\n        <CustomerRef>\n          <FullName>"
        ++ escapeXml entry.CustomerName ++
      "</FullName>\n        </CustomerRef>\n        <BillableStatus>Billable</BillableStatus>"
    else
      "\n        <BillableStatus>NotBillable</BillableStatus>")
  let qbxml := qbxml ++
    (if notesText ≠ "" then "\n        <Notes>" ++ notesText ++ "</Notes>" else "")
  qbxml ++ "\n      </TimeTrackingAdd>\n    </TimeTrackingAddRq>\n  </QBXMLMsgsRq>\n</QBXML>"

/-- Evaluation of `Math.round(1.5 * 60)`. -/
theorem mathRound_ex1 : mathRound ((3 / 2 : Rat) * 60) = 90 := by
  rw [mathRound, Int.floor_eq_iff]
  norm_num

/-- Evaluation of `Math.round(2 * 60)`. -/
theorem mathRound_ex2 : mathRound ((2 : Rat) * 60) = 120 := by
  rw [mathRound, Int.floor_eq_iff]
  norm_num

/-- Evaluation of `Math.round((1/12) * 60)` (five minutes). -/
theorem mathRound_ex3 : mathRound ((1 / 12 : Rat) * 60) = 5 := by
  rw [mathRound, Int.floor_eq_iff]
  norm_num

/-- `Math.round` at the negative half value `-2.5`: JS rounds toward +∞. -/
theorem mathRound_exneg : mathRound ((-1 / 24 : Rat) * 60) = -2 := by
  rw [mathRound, Int.floor_eq_iff]
  norm_num

/-- Half away from zero at `-2.5` gives `-3`. -/
theorem roundHalfAwayFromZero_exneg :
    roundHalfAwayFromZero ((-1 / 24 : Rat) * 60) = -3 := by
  rw [roundHalfAwayFromZero, if_neg (by norm_num)]
  have h : ⌊(-((-1 / 24 : Rat) * 60) + 1 / 2)⌋ = 3 := by
    rw [Int.floor_eq_iff]
    norm_num
  rw [h]

example : formatDuration (3 / 2) = "PT1H30M" := by
  simp only [formatDuration, mathRound_ex1]; decide
example : formatDuration 2 = "PT2H" := by
  simp only [formatDuration, mathRound_ex2]; decide
example : formatDuration (1 / 12) = "PT0H5M" := by
  simp only [formatDuration, mathRound_ex3]; decide
example : formatDuration (-1 / 24) = "PT-1H-2M" := by
  simp only [formatDuration, mathRound_exneg]; decide
example : formatDurationSpec (-1 / 24) = "PT-1H-3M" := by
  simp only [formatDurationSpec, roundHalfAwayFromZero_exneg]; decide

/-! ## Dispatcher and session registry (`index.js`) -/

/-- Per-session state, as stored in the `sessions` map on `authenticate`. -/
structure Session where
  authenticated : Bool
  pendingEntries : List Entry
  currentIndex : Nat
  lastError : String
deriving DecidableEq

/-- Configured credentials (`CONFIG.username` / `CONFIG.password`). -/
structure Config where
  username : String
  password : String

/-- Attributes of a `TimeTrackingAddRs` element of a parsed agent response. -/
structure RsAttrs where
  statusCode : String
  statusMessage : String
deriving DecidableEq

/-- The facts about the `response` string that `handleReceiveResponseXML`
inspects: whether `parseStringPromise` throws (`malformed`, carrying the
error message), and otherwise whether a
`QBXML.QBXMLMsgsRs.TimeTrackingAddRs` element with its status attributes is
present. -/
inductive QBResponse where
  | malformed (msg : String)
  | parsed (rs : Option RsAttrs)
deriving DecidableEq

/-- A JS number as returned by `receiveResponseXML`: a finite integer, or
the `Infinity` / `NaN` produced by dividing by zero. -/
inductive JSNum where
  | fin (n : Int)
  | inf
  | nan
deriving DecidableEq

/-- Whether a `JSNum` is a finite integer. -/
def JSNum.isFin : JSNum → Bool
  | .fin _ => true
  | _ => false

/-- The session registry: the JS `Map` keyed by ticket, modelled as an
association list with key-based lookup (the code never iterates the map, so
representation order is immaterial). -/
def Sessions : Type := List (String × Session)

/-- `sessions.get(ticket)`. -/
def sGet (l : Sessions) (k : String) : Option Session :=
  match l with
  | [] => none
  | (k', v) :: rest => if k' = k then some v else sGet rest k

/-- `sessions.delete(ticket)`. -/
def sDel (l : Sessions) (k : String) : Sessions :=
  match l with
  | [] => []
  | (k', v) :: rest => if k' = k then sDel rest k else (k', v) :: sDel rest k

/-- `sessions.set(ticket, s)` (same `get` observations as the JS `Map`). -/
def sSet (l : Sessions) (k : String) (v : Session) : Sessions :=
  (k, v) :: sDel l k

/-- Observable state of the bridge process together with its interaction log
with the external store: `fetchCount` counts the calls made to
`getQBSyncPendingEntries`, and `syncLog` records each batch passed to
`markEntriesQBSynced`. -/
structure World where
  sessions : Sessions
  fetchCount : Nat
  syncLog : List (List String)

/-- The external store, as the dispatcher sees it: the result of the
`n`-th call to `getQBSyncPendingEntries` (`.error` models a thrown
exception, caught by the dispatcher's `try/catch`). -/
def FetchFn : Type := Nat → Except String (List Entry)

/-- `handleAuthenticate`: on matching credentials, store a fresh session
under the generated ticket (the ticket string, built from `Date.now()` and
`Math.random()`, is an input here) and answer `[ticket, ""]`; otherwise
answer `["", "nvu"]` and leave the registry untouched. -/
def handleAuthenticate (cfg : Config) (ticket username password : String)
    (w : World) : World × (String × String) :=
  if username = cfg.username ∧ password = cfg.password then
    ({ w with sessions := sSet w.sessions ticket ⟨true, [], 0, ""⟩ }, (ticket, ""))
  else
    (w, ("", "nvu"))

/-- `handleSendRequestXML`: missing or unauthenticated session answers `""`;
a session with an empty worklist and cursor `0` first calls
`getQBSyncPendingEntries` (a thrown fetch error is caught: it is stored in
`lastError` and the call answers `""`); past the end of the worklist the
answer is `""`; otherwise the entry at the cursor is rendered.  The cursor is
never advanced here. -/
def handleSendRequestXML (fetch : FetchFn) (ticket : String) (w : World) :
    World × String :=
  match sGet w.sessions ticket with
  | none => (w, "")
  | some s =>
    if s.authenticated = false then (w, "")
    else if s.pendingEntries.length = 0 ∧ s.currentIndex = 0 then
      match fetch w.fetchCount with
      | .error msg =>
        ({ w with sessions := sSet w.sessions ticket { s with lastError := msg },
                  fetchCount := w.fetchCount + 1 }, "")
      | .ok l =>
        let s' : Session := { s with pendingEntries := l }
        let w' : World :=
          { w with sessions := sSet w.sessions ticket s', fetchCount := w.fetchCount + 1 }
        if h : s'.currentIndex < s'.pendingEntries.length then
          (w', buildTimeTrackingAddXML (s'.pendingEntries.get ⟨s'.currentIndex, h⟩))
        else (w', "")
    else
      if h : s.currentIndex < s.pendingEntries.length then
        (w, buildTimeTrackingAddXML (s.pendingEntries.get ⟨s.currentIndex, h⟩))
      else (w, "")

/-- The `TypeError` message Node produces when the success branch reads
`entry.ID` while `pendingEntries[currentIndex]` is `undefined`. -/
def undefinedIDMsg : String := "Cannot read properties of undefined (reading 'ID')"

/-- The progress value `Math.floor((currentIndex / pendingEntries.length) * 100)`
computed by `handleReceiveResponseXML` after the increment: division by a
zero length yields the JS `Infinity` (or `NaN` for `0 / 0`). -/
def progressJS (c len : Nat) : JSNum :=
  if len = 0 then (if c = 0 then .nan else .inf)
  else .fin ((100 * c / len : Nat) : Int)

/-- `handleReceiveResponseXML`: unknown ticket answers `-1`.  Otherwise the
response is parsed (a parse failure is caught: `lastError` is set, the
cursor still advances, and the answer is `-1`).  When a `TimeTrackingAddRs`
element is present, status code `"0"` marks the current entry synced (a
single-element batch; if the cursor is already past the end the `entry.ID`
read throws and is caught) and a non-zero status stores the status message
in `lastError`.  In every branch with a known ticket the cursor advances by
one and, when no exception occurred, the progress value is answered. -/
def handleReceiveResponseXML (ticket : String) (resp : QBResponse) (w : World) :
    World × JSNum :=
  match sGet w.sessions ticket with
  | none => (w, .fin (-1))
  | some s =>
    match resp with
    | .malformed msg =>
      let s' : Session := { s with lastError := msg, currentIndex := s.currentIndex + 1 }
      ({ w with sessions := sSet w.sessions ticket s' }, .fin (-1))
    | .parsed rs =>
      match rs with
      | some attrs =>
        if attrs.statusCode = "0" then
          match s.pendingEntries[s.currentIndex]? with
          | some e =>
            let s' : Session := { s with currentIndex := s.currentIndex + 1 }
            ({ w with sessions := sSet w.sessions ticket s',
                      syncLog := w.syncLog ++ [[e.ID]] },
             progressJS s'.currentIndex s'.pendingEntries.length)
          | none =>
            let s' : Session :=
              { s with lastError := undefinedIDMsg, currentIndex := s.currentIndex + 1 }
            ({ w with sessions := sSet w.sessions ticket s' }, .fin (-1))
        else
          let s' : Session :=
            { s with lastError := attrs.statusMessage, currentIndex := s.currentIndex + 1 }
          ({ w with sessions := sSet w.sessions ticket s' },
           progressJS s'.currentIndex s'.pendingEntries.length)
      | none =>
        let s' : Session := { s with currentIndex := s.currentIndex + 1 }
        ({ w with sessions := sSet w.sessions ticket s' },
         progressJS s'.currentIndex s'.pendingEntries.length)

/-- `handleConnectionError`: record the message in `lastError` when the
session exists; always answer `"done"`. -/
def handleConnectionError (ticket msg : String) (w : World) : World × String :=
  match sGet w.sessions ticket with
  | none => (w, "done")
  | some s =>
    ({ w with sessions := sSet w.sessions ticket { s with lastError := msg } }, "done")

/-- `handleGetLastError`: `session?.lastError || ''`. -/
def handleGetLastError (ticket : String) (w : World) : World × String :=
  (w, match sGet w.sessions ticket with
      | none => ""
      | some s => s.lastError)

/-- `handleCloseConnection`: destroy the session; answer `"OK"`. -/
def handleCloseConnection (ticket : String) (w : World) : World × String :=
  ({ w with sessions := sDel w.sessions ticket }, "OK")

/-- One procedure call arriving at the dispatcher. -/
inductive Op where
  | auth (ticket username password : String)
  | send (ticket : String)
  | receive (ticket : String) (resp : QBResponse)
  | connErr (ticket msg : String)
  | lastErr (ticket : String)
  | close (ticket : String)
deriving DecidableEq

/-- The world reached after dispatching one call. -/
def step (cfg : Config) (fetch : FetchFn) (w : World) : Op → World
  | .auth t u p => (handleAuthenticate cfg t u p w).1
  | .send t => (handleSendRequestXML fetch t w).1
  | .receive t r => (handleReceiveResponseXML t r w).1
  | .connErr t m => (handleConnectionError t m w).1
  | .lastErr t => (handleGetLastError t w).1
  | .close t => (handleCloseConnection t w).1

/-- The world reached after dispatching a sequence of calls. -/
def run (cfg : Config) (fetch : FetchFn) (w : World) : List Op → World
  | [] => w
  | op :: ops => run cfg fetch (step cfg fetch w op) ops

/-- The empty bridge process: no sessions, no external calls made. -/
def w0 : World := ⟨[], 0, []⟩

example :
    sGet (run ⟨"u", "p"⟩ (fun _ => .ok []) w0
      [.auth "T1" "u" "p", .receive "T1" (.parsed none)]).sessions "T1" =
      some ⟨true, [], 1, ""⟩ := by
  decide

/-! ## Registry lemmas -/

theorem sGet_sDel_self (l : Sessions) (k : String) : sGet (sDel l k) k = none := by
  induction l with
  | nil => rfl
  | cons p rest ih =>
    obtain ⟨k', v⟩ := p
    by_cases h : k' = k
    · simpa [sDel, h] using ih
    · simpa [sDel, sGet, h] using ih

theorem sGet_sDel_ne (l : Sessions) (k k' : String) (h : k ≠ k') :
    sGet (sDel l k) k' = sGet l k' := by
  induction l with
  | nil => rfl
  | cons p rest ih =>
    obtain ⟨k'', v⟩ := p
    by_cases h2 : k'' = k
    · subst h2
      simpa [sDel, sGet, h] using ih
    · simp only [sDel, if_neg h2, sGet]
      by_cases h3 : k'' = k'
      · simp [h3]
      · simpa [h3] using ih

theorem sGet_sSet_self (l : Sessions) (k : String) (v : Session) :
    sGet (sSet l k v) k = some v := by
  simp [sSet, sGet]

theorem sGet_sSet_ne (l : Sessions) (k k' : String) (v : Session) (h : k ≠ k') :
    sGet (sSet l k v) k' = sGet l k' := by
  simp only [sSet, sGet, if_neg h]
  exact sGet_sDel_ne l k k' h

/-! ## Handlers do not touch other tickets -/

theorem sGet_auth_ne (cfg : Config) (t' u p : String) (w : World) (t : String)
    (h : t' ≠ t) :
    sGet ((handleAuthenticate cfg t' u p w).1).sessions t = sGet w.sessions t := by
  unfold handleAuthenticate
  split <;> simp [sGet_sSet_ne _ _ _ _ h]

theorem sGet_send_ne (fetch : FetchFn) (t' : String) (w : World) (t : String)
    (h : t' ≠ t) :
    sGet ((handleSendRequestXML fetch t' w).1).sessions t = sGet w.sessions t := by
  unfold handleSendRequestXML
  cases hg : sGet w.sessions t' with
  | none => rfl
  | some s =>
    simp only []
    split
    · rfl
    · split
      · cases hf : fetch w.fetchCount with
        | error msg => simp [sGet_sSet_ne _ _ _ _ h]
        | ok l =>
          simp only []
          split <;> simp [sGet_sSet_ne _ _ _ _ h]
      · split <;> rfl

theorem sGet_receive_ne (t' : String) (resp : QBResponse) (w : World) (t : String)
    (h : t' ≠ t) :
    sGet ((handleReceiveResponseXML t' resp w).1).sessions t = sGet w.sessions t := by
  unfold handleReceiveResponseXML
  cases hg : sGet w.sessions t' with
  | none => rfl
  | some s =>
    cases resp with
    | malformed msg => simp [sGet_sSet_ne _ _ _ _ h]
    | parsed rs =>
      cases rs with
      | none => simp [sGet_sSet_ne _ _ _ _ h]
      | some attrs =>
        simp only []
        split
        · cases hge : s.pendingEntries[s.currentIndex]? <;>
            simp [sGet_sSet_ne _ _ _ _ h]
        · simp [sGet_sSet_ne _ _ _ _ h]

theorem sGet_connErr_ne (t' msg : String) (w : World) (t : String) (h : t' ≠ t) :
    sGet ((handleConnectionError t' msg w).1).sessions t = sGet w.sessions t := by
  unfold handleConnectionError
  cases hg : sGet w.sessions t' <;> simp [sGet_sSet_ne _ _ _ _ h]

theorem sGet_close_ne (t' : String) (w : World) (t : String) (h : t' ≠ t) :
    sGet ((handleCloseConnection t' w).1).sessions t = sGet w.sessions t := by
  unfold handleCloseConnection
  simp [sGet_sDel_ne _ _ _ h]

/-! ## Handler behaviour on the addressed ticket -/

theorem send_none (fetch : FetchFn) (t : String) (w : World)
    (hg : sGet w.sessions t = none) :
    handleSendRequestXML fetch t w = (w, "") := by
  unfold handleSendRequestXML
  rw [hg]

theorem receive_none (t : String) (resp : QBResponse) (w : World)
    (hg : sGet w.sessions t = none) :
    handleReceiveResponseXML t resp w = (w, .fin (-1)) := by
  unfold handleReceiveResponseXML
  rw [hg]

/-- A session that already holds a non-empty worklist is never re-fetched:
`sendRequestXML` leaves the whole world unchanged. -/
theorem send_nonempty_world (fetch : FetchFn) (t : String) (w : World) (s : Session)
    (hs : sGet w.sessions t = some s) (hne : s.pendingEntries ≠ []) :
    (handleSendRequestXML fetch t w).1 = w := by
  unfold handleSendRequestXML
  rw [hs]
  dsimp only
  have hlen : ¬(s.pendingEntries.length = 0 ∧ s.currentIndex = 0) := by
    rintro ⟨h1, -⟩
    exact hne (List.length_eq_zero.mp h1)
  by_cases ha : s.authenticated = false
  · simp [ha]
  · rw [if_neg ha, if_neg hlen]
    split <;> rfl

/-- A drained session with a non-empty worklist answers `""`. -/
theorem send_drained (fetch : FetchFn) (t : String) (w : World) (s : Session)
    (hs : sGet w.sessions t = some s) (hne : s.pendingEntries ≠ [])
    (hd : s.pendingEntries.length ≤ s.currentIndex) :
    handleSendRequestXML fetch t w = (w, "") := by
  unfold handleSendRequestXML
  rw [hs]
  dsimp only
  have hlen : ¬(s.pendingEntries.length = 0 ∧ s.currentIndex = 0) := by
    rintro ⟨h1, -⟩
    exact hne (List.length_eq_zero.mp h1)
  have hnlt : ¬ s.currentIndex < s.pendingEntries.length := by omega
  by_cases ha : s.authenticated = false
  · simp [ha]
  · rw [if_neg ha, if_neg hlen, dif_neg hnlt]

/-- `receiveResponseXML` on an existing session leaves the worklist unchanged
and advances the cursor by exactly one, in every branch. -/
theorem receive_session (t : String) (resp : QBResponse) (w : World) (s : Session)
    (hs : sGet w.sessions t = some s) :
    ∃ s', sGet ((handleReceiveResponseXML t resp w).1).sessions t = some s' ∧
      s'.pendingEntries = s.pendingEntries ∧
      s'.currentIndex = s.currentIndex + 1 ∧
      s'.authenticated = s.authenticated := by
  unfold handleReceiveResponseXML
  rw [hs]
  dsimp only
  cases resp with
  | malformed msg =>
    refine ⟨{ s with lastError := msg, currentIndex := s.currentIndex + 1 },
      ?_, rfl, rfl, rfl⟩
    simp [sGet_sSet_self]
  | parsed rs =>
    cases rs with
    | none =>
      refine ⟨{ s with currentIndex := s.currentIndex + 1 }, ?_, rfl, rfl, rfl⟩
      simp [sGet_sSet_self]
    | some attrs =>
      dsimp only
      by_cases hc : attrs.statusCode = "0"
      · rw [if_pos hc]
        cases hge : s.pendingEntries[s.currentIndex]? with
        | some e =>
          refine ⟨{ s with currentIndex := s.currentIndex + 1 }, ?_, rfl, rfl, rfl⟩
          simp [sGet_sSet_self]
        | none =>
          refine ⟨{ s with lastError := undefinedIDMsg, currentIndex := s.currentIndex + 1 },
            ?_, rfl, rfl, rfl⟩
          simp [sGet_sSet_self]
      · rw [if_neg hc]
        refine ⟨{ s with lastError := attrs.statusMessage, currentIndex := s.currentIndex + 1 },
          ?_, rfl, rfl, rfl⟩
        simp [sGet_sSet_self]

theorem connErr_session (t msg : String) (w : World) (s : Session)
    (hs : sGet w.sessions t = some s) :
    sGet ((handleConnectionError t msg w).1).sessions t =
      some { s with lastError := msg } := by
  unfold handleConnectionError
  rw [hs]
  simp [sGet_sSet_self]

/-! ## Session invariants preserved along traces -/

/-- The session under ticket `t` (if any) has a non-empty worklist. -/
def SNe (t : String) (w : World) : Prop :=
  ∀ s, sGet w.sessions t = some s → s.pendingEntries ≠ []

/-- The session under ticket `t` (if any) has a non-empty worklist and an
exhausted cursor. -/
def SDrained (t : String) (w : World) : Prop :=
  ∀ s, sGet w.sessions t = some s →
    s.pendingEntries ≠ [] ∧ s.pendingEntries.length ≤ s.currentIndex

theorem SNe_step (cfg : Config) (fetch : FetchFn) (w : World) (t : String) (op : Op)
    (hop : ∀ u p, op ≠ Op.auth t u p) (h : SNe t w) : SNe t (step cfg fetch w op) := by
  cases op with
  | auth t' u p =>
    have ht : t' ≠ t := fun he => hop u p (by rw [he])
    intro s hs
    apply h
    rwa [step, sGet_auth_ne cfg t' u p w t ht] at hs
  | send t' =>
    by_cases htt : t' = t
    · subst htt
      intro s hs
      rw [step] at hs
      cases hg : sGet w.sessions t' with
      | none => rw [send_none fetch t' w hg] at hs; exact h s hs
      | some s0 =>
        rw [send_nonempty_world fetch t' w s0 hg (h s0 hg)] at hs
        exact h s hs
    · intro s hs
      apply h
      rwa [step, sGet_send_ne fetch t' w t htt] at hs
  | receive t' r =>
    by_cases htt : t' = t
    · subst htt
      intro s hs
      rw [step] at hs
      cases hg : sGet w.sessions t' with
      | none =>
        rw [receive_none t' r w hg] at hs
        exact h s hs
      | some s0 =>
        obtain ⟨s', hs', he, -, -⟩ := receive_session t' r w s0 hg
        rw [hs'] at hs
        cases hs
        rw [he]
        exact h s0 hg
    · intro s hs
      apply h
      rwa [step, sGet_receive_ne t' r w t htt] at hs
  | connErr t' m =>
    by_cases htt : t' = t
    · subst htt
      intro s hs
      rw [step] at hs
      cases hg : sGet w.sessions t' with
      | none =>
        unfold handleConnectionError at hs
        rw [hg] at hs
        exact h s hs
      | some s0 =>
        rw [connErr_session t' m w s0 hg] at hs
        cases hs
        exact h s0 hg
    · intro s hs
      apply h
      rwa [step, sGet_connErr_ne t' m w t htt] at hs
  | lastErr t' =>
    intro s hs
    exact h s hs
  | close t' =>
    by_cases htt : t' = t
    · subst htt
      intro s hs
      rw [step] at hs
      unfold handleCloseConnection at hs
      simp only [sGet_sDel_self] at hs
      exact absurd hs (by simp)
    · intro s hs
      apply h
      rwa [step, sGet_close_ne t' w t htt] at hs

theorem SDrained_step (cfg : Config) (fetch : FetchFn) (w : World) (t : String) (op : Op)
    (hop : ∀ u p, op ≠ Op.auth t u p) (h : SDrained t w) :
    SDrained t (step cfg fetch w op) := by
  cases op with
  | auth t' u p =>
    have ht : t' ≠ t := fun he => hop u p (by rw [he])
    intro s hs
    apply h
    rwa [step, sGet_auth_ne cfg t' u p w t ht] at hs
  | send t' =>
    by_cases htt : t' = t
    · subst htt
      intro s hs
      rw [step] at hs
      cases hg : sGet w.sessions t' with
      | none => rw [send_none fetch t' w hg] at hs; exact h s hs
      | some s0 =>
        rw [send_nonempty_world fetch t' w s0 hg (h s0 hg).1] at hs
        exact h s hs
    · intro s hs
      apply h
      rwa [step, sGet_send_ne fetch t' w t htt] at hs
  | receive t' r =>
    by_cases htt : t' = t
    · subst htt
      intro s hs
      rw [step] at hs
      cases hg : sGet w.sessions t' with
      | none =>
        rw [receive_none t' r w hg] at hs
        exact h s hs
      | some s0 =>
        obtain ⟨s', hs', he, hi, -⟩ := receive_session t' r w s0 hg
        rw [hs'] at hs
        cases hs
        obtain ⟨h1, h2⟩ := h s0 hg
        rw [he, hi]
        exact ⟨h1, by omega⟩
    · intro s hs
      apply h
      rwa [step, sGet_receive_ne t' r w t htt] at hs
  | connErr t' m =>
    by_cases htt : t' = t
    · subst htt
      intro s hs
      rw [step] at hs
      cases hg : sGet w.sessions t' with
      | none =>
        unfold handleConnectionError at hs
        rw [hg] at hs
        exact h s hs
      | some s0 =>
        rw [connErr_session t' m w s0 hg] at hs
        cases hs
        exact h s0 hg
    · intro s hs
      apply h
      rwa [step, sGet_connErr_ne t' m w t htt] at hs
  | lastErr t' =>
    intro s hs
    exact h s hs
  | close t' =>
    by_cases htt : t' = t
    · subst htt
      intro s hs
      rw [step] at hs
      unfold handleCloseConnection at hs
      simp only [sGet_sDel_self] at hs
      exact absurd hs (by simp)
    · intro s hs
      apply h
      rwa [step, sGet_close_ne t' w t htt] at hs

theorem SNe_run (cfg : Config) (fetch : FetchFn) (t : String) :
    ∀ (ops : List Op) (w : World), (∀ u p, Op.auth t u p ∉ ops) → SNe t w →
      SNe t (run cfg fetch w ops) := by
  intro ops
  induction ops with
  | nil => intro w _ h; exact h
  | cons op rest ih =>
    intro w hops h
    rw [run]
    apply ih
    · intro u p hmem
      exact hops u p (List.mem_cons_of_mem _ hmem)
    · apply SNe_step cfg fetch w t op _ h
      intro u p he
      exact hops u p (he ▸ List.mem_cons_self _ _)

theorem SDrained_run (cfg : Config) (fetch : FetchFn) (t : String) :
    ∀ (ops : List Op) (w : World), (∀ u p, Op.auth t u p ∉ ops) → SDrained t w →
      SDrained t (run cfg fetch w ops) := by
  intro ops
  induction ops with
  | nil => intro w _ h; exact h
  | cons op rest ih =>
    intro w hops h
    rw [run]
    apply ih
    · intro u p hmem
      exact hops u p (List.mem_cons_of_mem _ hmem)
    · apply SDrained_step cfg fetch w t op _ h
      intro u p he
      exact hops u p (he ▸ List.mem_cons_self _ _)

/-! ## Cursor bound -/

theorem sGet_single (k t : String) (v : Session) :
    sGet [(k, v)] t = if k = t then some v else none := by
  unfold sGet
  split <;> rfl

/-- Every live session satisfies `currentIndex ≤ pendingEntries.length`. -/
def InvAll (w : World) : Prop :=
  ∀ t s, sGet w.sessions t = some s → s.currentIndex ≤ s.pendingEntries.length

theorem send_InvAll (fetch : FetchFn) (t' : String) (w : World) (h : InvAll w) :
    InvAll (handleSendRequestXML fetch t' w).1 := by
  intro t s' hs'
  by_cases htt : t' = t
  · subst htt
    unfold handleSendRequestXML at hs'
    cases hg : sGet w.sessions t' with
    | none => rw [hg] at hs'; exact h _ _ hs'
    | some s0 =>
      rw [hg] at hs'
      dsimp only at hs'
      by_cases ha : s0.authenticated = false
      · rw [if_pos ha] at hs'
        exact h _ _ hs'
      · rw [if_neg ha] at hs'
        by_cases hl : s0.pendingEntries.length = 0 ∧ s0.currentIndex = 0
        · rw [if_pos hl] at hs'
          cases hf : fetch w.fetchCount with
          | error msg =>
            rw [hf] at hs'
            dsimp only at hs'
            rw [sGet_sSet_self] at hs'
            cases hs'
            exact h t' s0 hg
          | ok l =>
            rw [hf] at hs'
            dsimp only at hs'
            split at hs' <;>
            · rw [sGet_sSet_self] at hs'
              cases hs'
              show s0.currentIndex ≤ _
              rw [hl.2]
              exact Nat.zero_le _
        · rw [if_neg hl] at hs'
          split at hs' <;> exact h _ _ hs'
  · rw [sGet_send_ne fetch t' w t htt] at hs'
    exact h _ _ hs'

/-- Claim C1, counterexample: after `authenticate` issues ticket `T1` (an
empty store, so `pendingEntries = []` with `cursor = 0`), a single
`receiveResponseXML` call with that valid ticket drives the cursor to `1`,
strictly above `len(pendingRecords) = 0`. -/
theorem c1_cursor_exceeds_len :
    sGet (run ⟨"u", "p"⟩ (fun _ => .ok []) w0
        [.auth "T1" "u" "p", .receive "T1" (.parsed none)]).sessions "T1" =
      some ⟨true, [], 1, ""⟩ ∧
    ¬ (1 ≤ ([] : List Entry).length) := by
  constructor
  · decide
  · decide

/-- Claim C1 (amended): `0 ≤ cursor` always holds (the cursor is a natural
number), and `cursor ≤ len(pendingRecords)` is preserved by every dispatcher
operation except `receiveResponseXML`, which preserves it exactly when it is
invoked while `cursor < len(pendingRecords)`; a `receiveResponseXML` call on
a session with `cursor = len(pendingRecords)` (the protocol-respecting agent
never issues one) increments the cursor past the bound. -/
theorem c1_cursor_bound_preserved (cfg : Config) (fetch : FetchFn) (w : World) (op : Op)
    (hInv : InvAll w)
    (hrecv : ∀ t r, op = Op.receive t r →
      ∀ s, sGet w.sessions t = some s → s.currentIndex < s.pendingEntries.length) :
    InvAll (step cfg fetch w op) := by
  cases op with
  | auth t' u p =>
    intro t s hs
    rw [step] at hs
    unfold handleAuthenticate at hs
    split at hs
    · dsimp only at hs
      by_cases htt : t' = t
      · subst htt
        rw [sGet_sSet_self] at hs
        cases hs
        exact Nat.le_refl 0
      · rw [sGet_sSet_ne _ _ _ _ htt] at hs
        exact hInv _ _ hs
    · exact hInv _ _ hs
  | send t' =>
    rw [step]
    exact send_InvAll fetch t' w hInv
  | receive t' r =>
    intro t s hs
    rw [step] at hs
    by_cases htt : t' = t
    · subst htt
      cases hg : sGet w.sessions t' with
      | none =>
        rw [receive_none t' r w hg] at hs
        exact hInv _ _ hs
      | some s0 =>
        obtain ⟨s', hs', he, hi, -⟩ := receive_session t' r w s0 hg
        rw [hs'] at hs
        cases hs
        have hlt := hrecv t' r rfl s0 hg
        rw [he, hi]
        omega
    · rw [sGet_receive_ne t' r w t htt] at hs
      exact hInv _ _ hs
  | connErr t' m =>
    intro t s hs
    rw [step] at hs
    by_cases htt : t' = t
    · subst htt
      cases hg : sGet w.sessions t' with
      | none =>
        unfold handleConnectionError at hs
        rw [hg] at hs
        exact hInv _ _ hs
      | some s0 =>
        rw [connErr_session t' m w s0 hg] at hs
        cases hs
        exact hInv t' s0 hg
    · rw [sGet_connErr_ne t' m w t htt] at hs
      exact hInv _ _ hs
  | lastErr t' =>
    intro t s hs
    exact hInv _ _ hs
  | close t' =>
    intro t s hs
    rw [step] at hs
    by_cases htt : t' = t
    · subst htt
      unfold handleCloseConnection at hs
      simp only [sGet_sDel_self] at hs
      exact absurd hs (by simp)
    · rw [sGet_close_ne t' w t htt] at hs
      exact hInv _ _ hs

/-- Witness for `c1_cursor_bound_preserved`: a concrete one-entry session at
cursor `0`, receiving a response before exhaustion. -/
theorem c1_cursor_bound_preserved_witness :
    InvAll (step ⟨"u", "p"⟩ (fun _ => .ok [])
      ⟨[("T", ⟨true, [⟨"A", "Alice", ⟨2026, 1, 5⟩, "", "", "", 1, ""⟩], 0, ""⟩)], 1, []⟩
      (.receive "T" (.parsed none))) := by
  apply c1_cursor_bound_preserved
  · intro t s hs
    rw [sGet_single] at hs
    split at hs
    · cases hs
      decide
    · exact absurd hs (by simp)
  · intro t r he s hs
    cases he
    rw [sGet_single] at hs
    split at hs
    · cases hs
      decide
    · exact absurd hs (by simp)

/-! ## Worklist fetching and exhaustion -/

/-- Sample entries used in concrete scenarios. -/
def eA : Entry := ⟨"A", "Alice", ⟨2026, 1, 5⟩, "", "", "", 1, ""⟩

def eB : Entry := ⟨"B", "Bob", ⟨2026, 1, 6⟩, "", "", "", 2, ""⟩

def eC : Entry := ⟨"C", "Cara", ⟨2026, 1, 7⟩, "", "", "", 1, ""⟩

/-- A store that is empty on the first fetch and gains a record afterwards. -/
def fetchGrow : FetchFn := fun n => if n = 0 then .ok [] else .ok [eA]

/-- Claim C2, counterexample: with an empty store, the first `sendRequestXML`
performs the fetch (one call made), and the second `sendRequestXML` on the
same ticket fetches again (two calls made), because the code detects
"not yet fetched" by `pendingEntries.length === 0 && currentIndex === 0`,
which still holds after an empty fetch. -/
theorem c2_fetch_called_twice :
    (run ⟨"u", "p"⟩ (fun _ => .ok []) w0 [.auth "T1" "u" "p", .send "T1"]).fetchCount = 1 ∧
    (run ⟨"u", "p"⟩ (fun _ => .ok []) w0
        [.auth "T1" "u" "p", .send "T1", .send "T1"]).fetchCount = 2 := by
  exact ⟨by decide, by decide⟩

/-- Claim C2 (amended): once a session holds a non-empty worklist, no later
`sendRequestXML` on that ticket calls `getQBSyncPendingEntries` again, for
the session's whole remaining lifetime; but while the worklist is still
empty with cursor `0` (in particular after a fetch that returned an empty
list) every further `sendRequestXML` re-fetches. -/
theorem c2_fetch_once_after_nonempty (cfg : Config) (fetch : FetchFn) (w : World)
    (t : String) (ops : List Op)
    (hne : SNe t w) (hops : ∀ u p, Op.auth t u p ∉ ops) :
    ((handleSendRequestXML fetch t (run cfg fetch w ops)).1).fetchCount =
      (run cfg fetch w ops).fetchCount := by
  have hne' := SNe_run cfg fetch t ops w hops hne
  cases hg : sGet (run cfg fetch w ops).sessions t with
  | none => rw [send_none fetch t _ hg]
  | some s => rw [send_nonempty_world fetch t _ s hg (hne' s hg)]

/-- Witness for `c2_fetch_once_after_nonempty`. -/
theorem c2_fetch_once_after_nonempty_witness :
    ((handleSendRequestXML (fun _ => .ok []) "T"
        (run ⟨"u", "p"⟩ (fun _ => .ok []) ⟨[("T", ⟨true, [eA], 0, ""⟩)], 1, []⟩
          [.receive "T" (.parsed none)])).1).fetchCount =
      (run ⟨"u", "p"⟩ (fun _ => .ok []) ⟨[("T", ⟨true, [eA], 0, ""⟩)], 1, []⟩
          [.receive "T" (.parsed none)]).fetchCount := by
  apply c2_fetch_once_after_nonempty
  · intro s hs
    rw [sGet_single] at hs
    split at hs
    · cases hs
      decide
    · exact absurd hs (by simp)
  · intro u p hmem
    simp at hmem

/-- Claim C5, counterexample: a session whose first fetch returned an empty
list has `cursor = 0 = len(pendingRecords)`, yet a later `sendRequestXML`
with that ticket re-fetches and, the store having gained a record, returns a
rendered document instead of the empty string. -/
theorem c5_send_nonempty_after_drained :
    sGet (run ⟨"u", "p"⟩ fetchGrow w0 [.auth "T1" "u" "p", .send "T1"]).sessions "T1" =
      some ⟨true, [], 0, ""⟩ ∧
    (handleSendRequestXML fetchGrow "T1"
        (run ⟨"u", "p"⟩ fetchGrow w0 [.auth "T1" "u" "p", .send "T1"])).2 ≠ "" := by
  exact ⟨by decide, by decide⟩

/-- Claim C5 (amended): once `cursor = len(pendingRecords)` with a non-empty
worklist, every subsequent `sendRequestXML` with that ticket returns the
empty string until the session is destroyed (and a missing session also
answers `""`); the claim fails only for the empty worklist, which the code
re-fetches. -/
theorem c5_drained_send_empty_forever (cfg : Config) (fetch : FetchFn) (w : World)
    (t : String) (ops : List Op)
    (hdr : SDrained t w) (hops : ∀ u p, Op.auth t u p ∉ ops) :
    (handleSendRequestXML fetch t (run cfg fetch w ops)).2 = "" := by
  have hdr' := SDrained_run cfg fetch t ops w hops hdr
  cases hg : sGet (run cfg fetch w ops).sessions t with
  | none => rw [send_none fetch t _ hg]
  | some s =>
    obtain ⟨h1, h2⟩ := hdr' s hg
    rw [send_drained fetch t _ s hg h1 h2]

/-- Witness for `c5_drained_send_empty_forever`. -/
theorem c5_drained_send_empty_forever_witness :
    (handleSendRequestXML (fun _ => .ok []) "T"
        (run ⟨"u", "p"⟩ (fun _ => .ok []) ⟨[("T", ⟨true, [eA], 1, ""⟩)], 1, []⟩
          [.receive "T" (.parsed none), .lastErr "T"])).2 = "" := by
  apply c5_drained_send_empty_forever
  · intro s hs
    rw [sGet_single] at hs
    split at hs
    · cases hs
      exact ⟨by decide, by decide⟩
    · exact absurd hs (by simp)
  · intro u p hmem
    simp at hmem

/-! ## Progress values -/

theorem progressJS_bounds (c len : Nat) (hlen : len ≠ 0) (hc : c ≤ len) :
    ∃ n : Int, progressJS c len = .fin n ∧ 0 ≤ n ∧ n ≤ 100 := by
  refine ⟨((100 * c / len : Nat) : Int), ?_, ?_, ?_⟩
  · unfold progressJS
    rw [if_neg hlen]
  · exact Int.natCast_nonneg _
  · have h1 : 100 * c / len ≤ 100 * len / len :=
      Nat.div_le_div_right (Nat.mul_le_mul_left 100 hc)
    have h2 : 100 * len / len = 100 := Nat.mul_div_cancel 100 (Nat.pos_of_ne_zero hlen)
    omega

/-- Claim C3, counterexample: a live session whose `pendingRecords` list is
empty: `receiveResponseXML` divides by zero and answers the JS `Infinity`
value, which is neither `-1` nor an integer in `0..100`, and in particular
not the `0` the specification defines for an empty list. -/
theorem c3_progress_infinite_on_empty :
    (handleReceiveResponseXML "T1" (.parsed none)
        ⟨[("T1", ⟨true, [], 0, ""⟩)], 0, []⟩).2 = JSNum.inf ∧
    JSNum.inf.isFin = false ∧
    JSNum.inf ≠ JSNum.fin (-1) ∧
    JSNum.inf ≠ JSNum.fin 0 := by
  exact ⟨by decide, by decide, by decide, by decide⟩

/-- Claim C3 (amended): for a live session that still has
`cursor < len(pendingRecords)`, every `receiveResponseXML` result is either
`-1` or an integer in `0..100`; the claim's clause about empty
`pendingRecords` fails — there the code returns the JS `Infinity`, not `0`. -/
theorem c3_result_range (w : World) (t : String) (s : Session) (resp : QBResponse)
    (hs : sGet w.sessions t = some s)
    (hlt : s.currentIndex < s.pendingEntries.length) :
    (handleReceiveResponseXML t resp w).2 = .fin (-1) ∨
    ∃ n : Int, (handleReceiveResponseXML t resp w).2 = .fin n ∧ 0 ≤ n ∧ n ≤ 100 := by
  have hlen : s.pendingEntries.length ≠ 0 := by omega
  unfold handleReceiveResponseXML
  rw [hs]
  dsimp only
  cases resp with
  | malformed msg => exact Or.inl rfl
  | parsed rs =>
    cases rs with
    | none =>
      exact Or.inr (progressJS_bounds (s.currentIndex + 1) s.pendingEntries.length hlen
        (by omega))
    | some attrs =>
      dsimp only
      by_cases hc : attrs.statusCode = "0"
      · rw [if_pos hc, List.getElem?_eq_getElem hlt]
        exact Or.inr (progressJS_bounds (s.currentIndex + 1) s.pendingEntries.length hlen
          (by omega))
      · rw [if_neg hc]
        exact Or.inr (progressJS_bounds (s.currentIndex + 1) s.pendingEntries.length hlen
          (by omega))

/-- Witness for `c3_result_range`. -/
theorem c3_result_range_witness :
    (handleReceiveResponseXML "T" (.parsed none)
        ⟨[("T", ⟨true, [eA], 0, ""⟩)], 0, []⟩).2 = .fin (-1) ∨
    ∃ n : Int, (handleReceiveResponseXML "T" (.parsed none)
        ⟨[("T", ⟨true, [eA], 0, ""⟩)], 0, []⟩).2 = .fin n ∧ 0 ≤ n ∧ n ≤ 100 := by
  exact c3_result_range _ "T" ⟨true, [eA], 0, ""⟩ (.parsed none) rfl (by decide)

/-- Claim C10: a response that parses but carries no
`QBXML/QBXMLMsgsRs/TimeTrackingAddRs` element neither calls `markSynced`
nor touches `lastError`, yet still advances the cursor by one and answers
the computed progress value, never `-1`. -/
theorem c10_no_rs_element (w : World) (t : String) (s : Session)
    (hs : sGet w.sessions t = some s) :
    (handleReceiveResponseXML t (.parsed none) w).1.syncLog = w.syncLog ∧
    sGet (handleReceiveResponseXML t (.parsed none) w).1.sessions t =
      some { s with currentIndex := s.currentIndex + 1 } ∧
    (handleReceiveResponseXML t (.parsed none) w).2 =
      progressJS (s.currentIndex + 1) s.pendingEntries.length ∧
    (handleReceiveResponseXML t (.parsed none) w).2 ≠ .fin (-1) := by
  unfold handleReceiveResponseXML
  rw [hs]
  dsimp only
  refine ⟨rfl, by simp [sGet_sSet_self], rfl, ?_⟩
  unfold progressJS
  split
  · split <;> simp
  · simp only [ne_eq, JSNum.fin.injEq]
    intro hcon
    have hnn := Int.natCast_nonneg (100 * (s.currentIndex + 1) / s.pendingEntries.length)
    omega

/-- Witness for `c10_no_rs_element`. -/
theorem c10_no_rs_element_witness :
    (handleReceiveResponseXML "T" (.parsed none)
        ⟨[("T", ⟨true, [eA], 0, "old"⟩)], 0, []⟩).1.syncLog = [] ∧
    sGet (handleReceiveResponseXML "T" (.parsed none)
        ⟨[("T", ⟨true, [eA], 0, "old"⟩)], 0, []⟩).1.sessions "T" =
      some ⟨true, [eA], 1, "old"⟩ ∧
    (handleReceiveResponseXML "T" (.parsed none)
        ⟨[("T", ⟨true, [eA], 0, "old"⟩)], 0, []⟩).2 = progressJS 1 [eA].length ∧
    (handleReceiveResponseXML "T" (.parsed none)
        ⟨[("T", ⟨true, [eA], 0, "old"⟩)], 0, []⟩).2 ≠ .fin (-1) := by
  exact c10_no_rs_element _ "T" ⟨true, [eA], 0, "old"⟩ rfl


/-! ## Outcome handling (C4) -/

/-- The worklist of the three-record scenario. -/
def scenarioFetch : FetchFn := fun _ => .ok [eA, eB, eC]

/-- Scenario prefix: authenticate, then three request/confirm rounds, the
first two confirmed with status `0`, the third request already sent. -/
def scenarioPre : World :=
  run ⟨"u", "p"⟩ scenarioFetch w0
    [.auth "T" "u" "p",
     .send "T", .receive "T" (.parsed (some ⟨"0", ""⟩)),
     .send "T", .receive "T" (.parsed (some ⟨"0", ""⟩)),
     .send "T"]

/-- Final step of the scenario: the third record fails with status `3120`. -/
def scenarioFinal : World × JSNum :=
  handleReceiveResponseXML "T" (.parsed (some ⟨"3120", "Object not found"⟩)) scenarioPre

/-- Claim C4: with `cursor < len(pendingRecords)`, a `receiveResponseXML`
whose `TimeTrackingAddRs` status code is `0` appends exactly one
single-element batch `[pendingRecords[cursor].ID]` to the `markSynced` log
and advances the cursor by one (leaving `lastError` alone); a non-zero
status code leaves the log alone, stores the status message in `lastError`,
and advances the cursor by one.  In the three-record scenario with two
successes and one failure, the final cursor is `3`, the reported progress is
`100`, `lastError` is the (non-empty) failure message, and `markSynced` was
called exactly twice, with the two successful ids only. -/
theorem c4_receive_outcome (w : World) (t : String) (s : Session)
    (hs : sGet w.sessions t = some s)
    (hlt : s.currentIndex < s.pendingEntries.length) :
    (∀ msg : String,
      (handleReceiveResponseXML t (.parsed (some ⟨"0", msg⟩)) w).1.syncLog =
        w.syncLog ++ [[(s.pendingEntries.get ⟨s.currentIndex, hlt⟩).ID]] ∧
      sGet (handleReceiveResponseXML t (.parsed (some ⟨"0", msg⟩)) w).1.sessions t =
        some { s with currentIndex := s.currentIndex + 1 }) ∧
    (∀ code msg : String, code ≠ "0" →
      (handleReceiveResponseXML t (.parsed (some ⟨code, msg⟩)) w).1.syncLog = w.syncLog ∧
      sGet (handleReceiveResponseXML t (.parsed (some ⟨code, msg⟩)) w).1.sessions t =
        some { s with currentIndex := s.currentIndex + 1, lastError := msg }) ∧
    (scenarioFinal.2 = .fin 100 ∧
      scenarioFinal.1.syncLog = [["A"], ["B"]] ∧
      sGet scenarioFinal.1.sessions "T" = some ⟨true, [eA, eB, eC], 3, "Object not found"⟩ ∧
      "Object not found" ≠ "") := by
  refine ⟨?_, ?_, by decide, by decide, by decide, by decide⟩
  · intro msg
    unfold handleReceiveResponseXML
    rw [hs]
    dsimp only
    rw [if_pos rfl, List.getElem?_eq_getElem hlt]
    exact ⟨rfl, by simp [sGet_sSet_self]⟩
  · intro code msg hcode
    unfold handleReceiveResponseXML
    rw [hs]
    dsimp only
    rw [if_neg hcode]
    exact ⟨rfl, by simp [sGet_sSet_self]⟩

/-- Witness for `c4_receive_outcome`. -/
theorem c4_receive_outcome_witness :
    (handleReceiveResponseXML "T" (.parsed (some ⟨"0", ""⟩))
        ⟨[("T", ⟨true, [eA], 0, ""⟩)], 0, []⟩).1.syncLog =
      [] ++ [[(([eA] : List Entry).get ⟨0, by decide⟩).ID]] ∧
    sGet (handleReceiveResponseXML "T" (.parsed (some ⟨"0", ""⟩))
        ⟨[("T", ⟨true, [eA], 0, ""⟩)], 0, []⟩).1.sessions "T" =
      some ⟨true, [eA], 1, ""⟩ := by
  exact (c4_receive_outcome ⟨[("T", ⟨true, [eA], 0, ""⟩)], 0, []⟩ "T"
    ⟨true, [eA], 0, ""⟩ rfl (by decide)).1 ""

/-! ## Authentication rejection (C7) -/

/-- Claim C7: wrong credentials make `authenticate` answer `["", "nvu"]` and
leave the registry (indeed the whole world) unchanged; a `sendRequestXML`
with any unissued ticket answers `""` without side effects, and
`getLastError` on such a ticket answers `""`. -/
theorem c7_auth_reject (cfg : Config) (fetch : FetchFn) (w : World)
    (ticket username password t2 : String)
    (hcred : ¬(username = cfg.username ∧ password = cfg.password))
    (hmiss : sGet w.sessions t2 = none) :
    handleAuthenticate cfg ticket username password w = (w, ("", "nvu")) ∧
    (handleSendRequestXML fetch t2 w).2 = "" ∧
    (handleSendRequestXML fetch t2 w).1 = w ∧
    (handleGetLastError t2 w).2 = "" := by
  refine ⟨?_, ?_, ?_, ?_⟩
  · unfold handleAuthenticate
    rw [if_neg hcred]
  · rw [send_none fetch t2 w hmiss]
  · rw [send_none fetch t2 w hmiss]
  · unfold handleGetLastError
    rw [hmiss]

/-- Witness for `c7_auth_reject`. -/
theorem c7_auth_reject_witness :
    handleAuthenticate ⟨"u", "p"⟩ "T1" "u" "wrong" w0 = (w0, ("", "nvu")) ∧
    (handleSendRequestXML (fun _ => .ok []) "GUESS" w0).2 = "" ∧
    (handleSendRequestXML (fun _ => .ok []) "GUESS" w0).1 = w0 ∧
    (handleGetLastError "GUESS" w0).2 = "" := by
  exact c7_auth_reject ⟨"u", "p"⟩ (fun _ => .ok []) w0 "T1" "u" "wrong" "GUESS"
    (by decide) rfl

/-! ## sendRequestXML path lemmas and idempotence (C6) -/

theorem send_unauth (fetch : FetchFn) (t : String) (w : World) (s : Session)
    (hs : sGet w.sessions t = some s) (ha : s.authenticated = false) :
    handleSendRequestXML fetch t w = (w, "") := by
  unfold handleSendRequestXML
  rw [hs]
  dsimp only
  rw [if_pos ha]

theorem send_world_nofetch (fetch : FetchFn) (t : String) (w : World) (s : Session)
    (hs : sGet w.sessions t = some s) (ha : ¬s.authenticated = false)
    (h : ¬(s.pendingEntries.length = 0 ∧ s.currentIndex = 0)) :
    (handleSendRequestXML fetch t w).1 = w := by
  unfold handleSendRequestXML
  rw [hs]
  dsimp only
  rw [if_neg ha, if_neg h]
  split <;> rfl

theorem send_result_lt (fetch : FetchFn) (t : String) (w : World) (s : Session)
    (hs : sGet w.sessions t = some s) (ha : ¬s.authenticated = false)
    (h : ¬(s.pendingEntries.length = 0 ∧ s.currentIndex = 0))
    (hlt : s.currentIndex < s.pendingEntries.length) :
    handleSendRequestXML fetch t w =
      (w, buildTimeTrackingAddXML (s.pendingEntries.get ⟨s.currentIndex, hlt⟩)) := by
  unfold handleSendRequestXML
  rw [hs]
  dsimp only
  rw [if_neg ha, if_neg h, dif_pos hlt]

theorem send_fetch_error (fetch : FetchFn) (t : String) (w : World) (s : Session)
    (msg : String) (hs : sGet w.sessions t = some s) (ha : ¬s.authenticated = false)
    (hl : s.pendingEntries.length = 0 ∧ s.currentIndex = 0)
    (hf : fetch w.fetchCount = .error msg) :
    handleSendRequestXML fetch t w =
      ({ w with sessions := sSet w.sessions t { s with lastError := msg },
                fetchCount := w.fetchCount + 1 }, "") := by
  unfold handleSendRequestXML
  rw [hs]
  dsimp only
  rw [if_neg ha, if_pos hl, hf]

theorem send_fetch_ok_nil (fetch : FetchFn) (t : String) (w : World) (s : Session)
    (hs : sGet w.sessions t = some s) (ha : ¬s.authenticated = false)
    (hl : s.pendingEntries.length = 0 ∧ s.currentIndex = 0)
    (hf : fetch w.fetchCount = .ok []) :
    handleSendRequestXML fetch t w =
      ({ w with sessions := sSet w.sessions t { s with pendingEntries := [] },
                fetchCount := w.fetchCount + 1 }, "") := by
  unfold handleSendRequestXML
  rw [hs]
  dsimp only
  rw [if_neg ha, if_pos hl, hf]
  dsimp only
  rw [dif_neg (by simp)]

theorem send_fetch_ok_cons (fetch : FetchFn) (t : String) (w : World) (s : Session)
    (l : List Entry) (hs : sGet w.sessions t = some s) (ha : ¬s.authenticated = false)
    (hl : s.pendingEntries.length = 0 ∧ s.currentIndex = 0)
    (hf : fetch w.fetchCount = .ok l) (hlt : s.currentIndex < l.length) :
    handleSendRequestXML fetch t w =
      ({ w with sessions := sSet w.sessions t { s with pendingEntries := l },
                fetchCount := w.fetchCount + 1 },
       buildTimeTrackingAddXML (l.get ⟨s.currentIndex, hlt⟩)) := by
  unfold handleSendRequestXML
  rw [hs]
  dsimp only
  rw [if_neg ha, if_pos hl, hf]
  dsimp only
  rw [dif_pos hlt]

/-- Claim C6, counterexample: authenticate against a store that is empty on
the first fetch and gains a record afterwards; two consecutive
`sendRequestXML` calls on the live session, with no intervening
`receiveResponseXML`, return `""` and then a rendered document — different
strings — because the second call re-fetches the (still empty-at-cursor-0)
worklist. -/
theorem c6_consecutive_sends_differ :
    (handleSendRequestXML fetchGrow "T1"
        (run ⟨"u", "p"⟩ fetchGrow w0 [.auth "T1" "u" "p"])).2 = "" ∧
    (handleSendRequestXML fetchGrow "T1"
        ((handleSendRequestXML fetchGrow "T1"
          (run ⟨"u", "p"⟩ fetchGrow w0 [.auth "T1" "u" "p"])).1)).2 ≠ "" := by
  exact ⟨by decide, by decide⟩

/-- Claim C6 (amended): `sendRequestXML` never advances the cursor, and two
consecutive `sendRequestXML` calls on the same session with no intervening
`receiveResponseXML` return the same document string **provided** any
fetches they perform see the same store contents (in particular whenever the
store does not change between the calls); when the first call's fetch
returns an empty list and the store then gains records, the two results can
differ. -/
theorem c6_send_idempotent (fetch : FetchFn) (t : String) (w : World) :
    (∀ s, sGet w.sessions t = some s →
      ∀ s', sGet ((handleSendRequestXML fetch t w).1).sessions t = some s' →
        s'.currentIndex = s.currentIndex) ∧
    ((∀ n, fetch n = fetch 0) →
      (handleSendRequestXML fetch t ((handleSendRequestXML fetch t w).1)).2 =
        (handleSendRequestXML fetch t w).2) := by
  constructor
  · intro s hs s' hs'
    unfold handleSendRequestXML at hs'
    rw [hs] at hs'
    dsimp only at hs'
    by_cases ha : s.authenticated = false
    · rw [if_pos ha] at hs'
      rw [hs] at hs'
      cases hs'
      rfl
    · rw [if_neg ha] at hs'
      by_cases hl : s.pendingEntries.length = 0 ∧ s.currentIndex = 0
      · rw [if_pos hl] at hs'
        cases hf : fetch w.fetchCount with
        | error msg =>
          rw [hf] at hs'
          dsimp only at hs'
          rw [sGet_sSet_self] at hs'
          cases hs'
          rfl
        | ok l =>
          rw [hf] at hs'
          dsimp only at hs'
          split at hs' <;>
          · rw [sGet_sSet_self] at hs'
            cases hs'
            rfl
      · rw [if_neg hl] at hs'
        split at hs' <;>
        · rw [hs] at hs'
          cases hs'
          rfl
  · intro hconst
    cases hg : sGet w.sessions t with
    | none =>
      rw [send_none fetch t w hg]
      dsimp only
      rw [send_none fetch t w hg]
    | some s =>
      by_cases ha : s.authenticated = false
      · rw [send_unauth fetch t w s hg ha]
        dsimp only
        rw [send_unauth fetch t w s hg ha]
      · by_cases hl : s.pendingEntries.length = 0 ∧ s.currentIndex = 0
        · cases hf : fetch w.fetchCount with
          | error msg =>
            rw [send_fetch_error fetch t w s msg hg ha hl hf]
            dsimp only
            have hg1 : sGet (sSet w.sessions t { s with lastError := msg }) t =
                some { s with lastError := msg } := sGet_sSet_self _ _ _
            have hf1 : fetch (w.fetchCount + 1) = .error msg := by
              rw [hconst (w.fetchCount + 1), ← hconst w.fetchCount, hf]
            rw [send_fetch_error fetch t
              ({ w with sessions := sSet w.sessions t { s with lastError := msg },
                        fetchCount := w.fetchCount + 1 })
              ({ s with lastError := msg }) msg hg1 ha hl hf1]
          | ok l =>
            cases l with
            | nil =>
              rw [send_fetch_ok_nil fetch t w s hg ha hl hf]
              dsimp only
              have hg1 : sGet (sSet w.sessions t { s with pendingEntries := [] }) t =
                  some { s with pendingEntries := ([] : List Entry) } := sGet_sSet_self _ _ _
              have hf1 : fetch (w.fetchCount + 1) = .ok [] := by
                rw [hconst (w.fetchCount + 1), ← hconst w.fetchCount, hf]
              rw [send_fetch_ok_nil fetch t
                ({ w with sessions := sSet w.sessions t { s with pendingEntries := [] },
                          fetchCount := w.fetchCount + 1 })
                ({ s with pendingEntries := ([] : List Entry) }) hg1 ha ⟨rfl, hl.2⟩ hf1]
            | cons e rest =>
              have hlt : s.currentIndex < (e :: rest).length := by
                rw [hl.2]
                exact Nat.succ_pos _
              rw [send_fetch_ok_cons fetch t w s (e :: rest) hg ha hl hf hlt]
              dsimp only
              have hg1 : sGet (sSet w.sessions t { s with pendingEntries := e :: rest }) t =
                  some { s with pendingEntries := e :: rest } := sGet_sSet_self _ _ _
              have hl1 : ¬(({ s with pendingEntries := e :: rest } : Session).pendingEntries.length = 0 ∧
                  ({ s with pendingEntries := e :: rest } : Session).currentIndex = 0) := by
                simp
              rw [send_result_lt fetch t
                ({ w with sessions := sSet w.sessions t { s with pendingEntries := e :: rest },
                          fetchCount := w.fetchCount + 1 })
                ({ s with pendingEntries := e :: rest }) hg1 ha hl1 hlt]
        · have h1 := send_world_nofetch fetch t w s hg ha hl
          rw [h1]

/-- Witness for `c6_send_idempotent`: a fresh session against an unchanging
store; the two consecutive send results coincide. -/
theorem c6_send_idempotent_witness :
    (handleSendRequestXML (fun _ => .ok [eA]) "T"
        ((handleSendRequestXML (fun _ => .ok [eA]) "T"
          ⟨[("T", ⟨true, [], 0, ""⟩)], 0, []⟩).1)).2 =
      (handleSendRequestXML (fun _ => .ok [eA]) "T"
        ⟨[("T", ⟨true, [], 0, ""⟩)], 0, []⟩).2 := by
  exact (c6_send_idempotent (fun _ => .ok [eA]) "T"
    ⟨[("T", ⟨true, [], 0, ""⟩)], 0, []⟩).2 (fun _ => rfl)

/-! ## Duration rendering (C8) -/

theorem tmod_sixty (a : Int) : Int.tmod a 60 = 0 ↔ (60 : Int) ∣ a := by
  constructor
  · intro h
    have h2 := Int.tdiv_add_tmod a 60
    exact ⟨a.tdiv 60, by omega⟩
  · rintro ⟨c, rfl⟩
    exact Int.mul_tmod_right 60 c

/-- Claim C8, counterexample: at `hours = -1/24` (that is, `-2.5` minutes)
the code's `Math.round` gives `-2` (halves round toward +∞) while rounding
half away from zero gives `-3`, so the rendered duration differs from the
one the specified rounding policy would produce. -/
theorem c8_round_half_up_not_away :
    mathRound ((-1 / 24 : Rat) * 60) = -2 ∧
    roundHalfAwayFromZero ((-1 / 24 : Rat) * 60) = -3 ∧
    formatDuration (-1 / 24) = "PT-1H-2M" ∧
    formatDurationSpec (-1 / 24) = "PT-1H-3M" ∧
    formatDuration (-1 / 24) ≠ formatDurationSpec (-1 / 24) := by
  have h1 : formatDuration (-1 / 24 : Rat) = "PT-1H-2M" := by
    simp only [formatDuration, mathRound_exneg]
    decide
  have h2 : formatDurationSpec (-1 / 24 : Rat) = "PT-1H-3M" := by
    simp only [formatDurationSpec, roundHalfAwayFromZero_exneg]
    decide
  refine ⟨mathRound_exneg, roundHalfAwayFromZero_exneg, h1, h2, ?_⟩
  rw [h1, h2]
  decide

/-- Claim C8 (amended): the renderer rounds `hours * 60` half toward +∞
(JS `Math.round`), which agrees with rounding half away from zero for all
non-negative hours; it splits the rounded minutes into `PT<h>H<m>M` and
omits the minutes component (the string ends in `H`) exactly when the
rounded minutes are a whole-hour multiple; `1.5` hours render `PT1H30M`,
`2.0` renders `PT2H`, and `1/12` hours (five minutes) render `PT0H5M`. -/
theorem c8_duration_format :
    (∀ q : Rat, 0 ≤ q → formatDuration q = formatDurationSpec q) ∧
    (∀ q : Rat, (formatDuration q).data.getLast? = some 'H' ↔
      (60 : Int) ∣ mathRound (q * 60)) ∧
    formatDuration (3 / 2) = "PT1H30M" ∧
    formatDuration 2 = "PT2H" ∧
    formatDuration (1 / 12) = "PT0H5M" := by
  refine ⟨?_, ?_, ?_, ?_, ?_⟩
  · intro q hq
    unfold formatDuration formatDurationSpec
    have hr : roundHalfAwayFromZero (q * 60) = mathRound (q * 60) := by
      unfold roundHalfAwayFromZero mathRound
      rw [if_pos (mul_nonneg hq (by norm_num))]
    rw [hr]
  · intro q
    unfold formatDuration
    dsimp only
    by_cases hm : Int.tmod (mathRound (q * 60)) 60 = 0
    · rw [if_pos hm]
      have hH : ("PT" ++ Int.repr (Int.fdiv (mathRound (q * 60)) 60) ++ "H").data.getLast? =
          some 'H' := by
        rw [String.data_append]
        exact List.getLast?_concat _
      rw [hH]
      simp only [true_iff, iff_true]
      exact (tmod_sixty _).mp hm
    · rw [if_neg hm]
      have hM : ("PT" ++ Int.repr (Int.fdiv (mathRound (q * 60)) 60) ++ "H" ++
          Int.repr (Int.tmod (mathRound (q * 60)) 60) ++ "M").data.getLast? = some 'M' := by
        rw [String.data_append]
        exact List.getLast?_concat _
      rw [hM]
      constructor
      · intro hcon
        exact absurd hcon (by decide)
      · intro hdvd
        exact absurd ((tmod_sixty _).mpr hdvd) hm
  · simp only [formatDuration, mathRound_ex1]
    decide
  · simp only [formatDuration, mathRound_ex2]
    decide
  · simp only [formatDuration, mathRound_ex3]
    decide

/-- Witness for `c8_duration_format`. -/
theorem c8_duration_format_witness :
    (0 : Rat) ≤ 3 / 2 ∧ formatDuration (3 / 2) = formatDurationSpec (3 / 2) := by
  exact ⟨by norm_num, c8_duration_format.1 (3 / 2) (by norm_num)⟩

/-! ## Occurrence analysis for the rendered document (C9) -/

/-- `p` occurs as a contiguous segment of `l`. -/
def InfixOf (p l : List Char) : Prop := ∃ s t, l = s ++ p ++ t

theorem infixOf_append_left (p a l : List Char) (h : InfixOf p l) : InfixOf p (a ++ l) := by
  obtain ⟨s, t, rfl⟩ := h
  exact ⟨a ++ s, t, by simp [List.append_assoc]⟩

theorem infixOf_append_right (p l b : List Char) (h : InfixOf p l) : InfixOf p (l ++ b) := by
  obtain ⟨s, t, rfl⟩ := h
  exact ⟨s, t ++ b, by simp [List.append_assoc]⟩

/-- Whether the two-character sequence `<C` occurs in `l`.  Every occurrence
of `<CustomerRef>` contains one, and the only `<` characters of a rendered
non-billable document sit in fixed tag literals that are never followed by
`C`. -/
def hasLtC : List Char → Bool
  | [] => false
  | [_] => false
  | a :: b :: rest => (a == '<' && b == 'C') || hasLtC (b :: rest)

theorem hasLtC_cons (x : Char) (l : List Char) (h : hasLtC l = true) :
    hasLtC (x :: l) = true := by
  cases l with
  | nil => exact absurd h (by decide)
  | cons y r => simp [hasLtC, h]

theorem hasLtC_of_infixOf (t l : List Char)
    (h : InfixOf ('<' :: 'C' :: t) l) : hasLtC l = true := by
  obtain ⟨s, u, rfl⟩ := h
  induction s with
  | nil => simp [hasLtC]
  | cons x s' ih => exact hasLtC_cons x _ ih

theorem not_mem_hasLtC : ∀ (l : List Char), '<' ∉ l → hasLtC l = false
  | [], _ => rfl
  | [_], _ => rfl
  | a :: b :: r, h => by
    have ha : ¬(a = '<') := by
      intro he
      subst he
      exact h (List.mem_cons_self _ _)
    have hr : '<' ∉ b :: r := fun hm => h (List.mem_cons_of_mem a hm)
    simp only [hasLtC, not_mem_hasLtC (b :: r) hr, Bool.or_false]
    simp [ha]

theorem getLast?_ne_lt : ∀ (l : List Char), '<' ∉ l → l.getLast? ≠ some '<'
  | [], _ => by simp
  | [x], h => by
    intro he
    have hx : x = '<' := Option.some.inj he
    subst hx
    exact h (List.mem_cons_self _ _)
  | x :: y :: r, h => by
    rw [List.getLast?_cons_cons]
    exact getLast?_ne_lt (y :: r) (fun hm => h (List.mem_cons_of_mem x hm))

theorem hasLtC_append : ∀ (a b : List Char), hasLtC a = false → hasLtC b = false →
    a.getLast? ≠ some '<' → hasLtC (a ++ b) = false
  | [], b, _, hb, _ => hb
  | [x], b, _, hb, hx => by
    have hxne : ¬(x = '<') := by
      intro he
      subst he
      exact hx (by decide)
    cases b with
    | nil => rfl
    | cons y r =>
      show hasLtC (x :: y :: r) = false
      simp only [hasLtC, hb, Bool.or_false]
      simp [hxne]
  | x :: y :: rest, b, ha, hb, hx => by
    have hsplit : hasLtC (x :: y :: rest) = ((x == '<' && y == 'C') || hasLtC (y :: rest)) := rfl
    rw [hsplit, Bool.or_eq_false_iff] at ha
    obtain ⟨h1, h2⟩ := ha
    have hx' : (y :: rest).getLast? ≠ some '<' := by
      rwa [List.getLast?_cons_cons] at hx
    have hrec := hasLtC_append (y :: rest) b h2 hb hx'
    show hasLtC (x :: y :: (rest ++ b)) = false
    simp only [hasLtC, Bool.or_eq_false_iff]
    exact ⟨h1, hrec⟩

theorem not_lt_mem_escapeChar (c : Char) : '<' ∉ escapeChar c := by
  unfold escapeChar
  by_cases h1 : c = '&'
  · rw [if_pos h1]; decide
  · rw [if_neg h1]
    by_cases h2 : c = '<'
    · rw [if_pos h2]; decide
    · rw [if_neg h2]
      by_cases h3 : c = '>'
      · rw [if_pos h3]; decide
      · rw [if_neg h3]
        by_cases h4 : c = '"'
        · rw [if_pos h4]; decide
        · rw [if_neg h4]
          by_cases h5 : c = '\''
          · rw [if_pos h5]; decide
          · rw [if_neg h5]
            intro hm
            exact h2 (List.mem_singleton.mp hm).symm

theorem not_lt_mem_escapeXml (s : String) : '<' ∉ (escapeXml s).data := by
  unfold escapeXml
  intro hm
  obtain ⟨l, hl, hc⟩ := List.mem_flatten.mp hm
  obtain ⟨c, -, rfl⟩ := List.mem_map.mp hl
  exact not_lt_mem_escapeChar c hc

theorem digitChar_ne_lt (n : Nat) (hn : n < 10) : Nat.digitChar n ≠ '<' := by
  interval_cases n <;> decide

theorem toDigitsCore_not_lt :
    ∀ (fuel n : Nat) (ds : List Char), '<' ∉ ds → '<' ∉ Nat.toDigitsCore 10 fuel n ds := by
  intro fuel
  induction fuel with
  | zero => intro n ds h; exact h
  | succ f ih =>
    intro n ds h
    unfold Nat.toDigitsCore
    dsimp only
    split
    · intro hm
      rcases List.mem_cons.mp hm with h1 | h2
      · exact digitChar_ne_lt _ (Nat.mod_lt n (by omega)) h1.symm
      · exact h h2
    · apply ih
      intro hm
      rcases List.mem_cons.mp hm with h1 | h2
      · exact digitChar_ne_lt _ (Nat.mod_lt n (by omega)) h1.symm
      · exact h h2

theorem natRepr_not_lt (n : Nat) : '<' ∉ (Nat.repr n).data :=
  toDigitsCore_not_lt (n + 1) n [] (by simp)

theorem intRepr_not_lt (i : Int) : '<' ∉ (Int.repr i).data := by
  cases i with
  | ofNat n => exact natRepr_not_lt n
  | negSucc n =>
    show '<' ∉ ("-" ++ Nat.repr (n + 1)).data
    rw [String.data_append]
    intro hm
    rcases List.mem_append.mp hm with h1 | h2
    · exact absurd h1 (by decide)
    · exact natRepr_not_lt _ h2

theorem not_mem_append_char {c : Char} {a b : List Char} (ha : c ∉ a) (hb : c ∉ b) :
    c ∉ a ++ b := by
  intro hm
  rcases List.mem_append.mp hm with h | h
  · exact ha h
  · exact hb h

theorem padStart2_not_lt (s : String) (h : '<' ∉ s.data) : '<' ∉ (padStart2 s).data := by
  unfold padStart2
  split
  · rw [String.data_append]
    apply not_mem_append_char _ h
    intro hm
    have h0 : '<' ∈ List.replicate (2 - s.length) '0' := hm
    exact absurd (List.eq_of_mem_replicate h0) (by decide)
  · exact h

theorem formatDate_not_lt (d : QBDate) : '<' ∉ (formatDate d).data := by
  unfold formatDate
  rw [String.data_append, String.data_append, String.data_append, String.data_append]
  exact not_mem_append_char
    (not_mem_append_char
      (not_mem_append_char
        (not_mem_append_char (natRepr_not_lt _) (by decide))
        (padStart2_not_lt _ (natRepr_not_lt _)))
      (by decide))
    (padStart2_not_lt _ (natRepr_not_lt _))

theorem formatDuration_not_lt (q : Rat) : '<' ∉ (formatDuration q).data := by
  unfold formatDuration
  dsimp only
  split
  · rw [String.data_append, String.data_append]
    exact not_mem_append_char
      (not_mem_append_char (by decide) (intRepr_not_lt _)) (by decide)
  · rw [String.data_append, String.data_append, String.data_append, String.data_append]
    exact not_mem_append_char
      (not_mem_append_char
        (not_mem_append_char
          (not_mem_append_char (by decide) (intRepr_not_lt _))
          (by decide))
        (intRepr_not_lt _))
      (by decide)

theorem hasLtC_notesOpt (P : Prop) [Decidable P] (nt : String) (h : '<' ∉ nt.data) :
    hasLtC (if P then ("\n        <Notes>" ++ nt ++ "</Notes>" : String) else "").data = false ∧
    (if P then ("\n        <Notes>" ++ nt ++ "</Notes>" : String) else "").data.getLast? ≠
      some '<' := by
  split
  · constructor
    · rw [String.data_append, String.data_append, List.append_assoc]
      apply hasLtC_append
      · decide
      · apply hasLtC_append
        · exact not_mem_hasLtC _ h
        · decide
        · exact getLast?_ne_lt _ h
      · decide
    · rw [String.data_append, String.data_append, List.getLast?_append]
      have hv : ("</Notes>" : String).data.getLast? = some '>' := by decide
      rw [hv, Option.or_some]
      decide
  · exact ⟨rfl, by decide⟩

/-- No `<C` sequence — hence no `<CustomerRef>` — occurs in a rendered
non-billable document: every `<` of the document sits in one of the fixed tag
literals (the variable parts are XML-escaped or decimal digits) and none of
those literals is followed by a `C`. -/
theorem hasLtC_build_false (e : Entry) (hnb : ¬billableCond e) :
    hasLtC (buildTimeTrackingAddXML e).data = false := by
  have hen : '<' ∉ (escapeXml (if e.EmployeeName = "" then "Unknown" else e.EmployeeName)).data :=
    not_lt_mem_escapeXml _
  unfold buildTimeTrackingAddXML
  dsimp only
  rw [if_neg hnb]
  simp only [String.data_append, List.append_assoc]
  apply hasLtC_append
  · decide
  · apply hasLtC_append
    · exact not_mem_hasLtC _ (formatDate_not_lt _)
    · apply hasLtC_append
      · decide
      · apply hasLtC_append
        · exact not_mem_hasLtC _ hen
        · apply hasLtC_append
          · decide
          · apply hasLtC_append
            · exact not_mem_hasLtC _ (formatDuration_not_lt _)
            · apply hasLtC_append
              · decide
              · apply hasLtC_append
                · decide
                · apply hasLtC_append
                  · exact (hasLtC_notesOpt _ _ (not_lt_mem_escapeXml _)).1
                  · decide
                  · exact (hasLtC_notesOpt _ _ (not_lt_mem_escapeXml _)).2
                · decide
              · decide
            · exact getLast?_ne_lt _ (formatDuration_not_lt _)
          · decide
        · exact getLast?_ne_lt _ hen
      · decide
    · exact getLast?_ne_lt _ (formatDate_not_lt _)
  · decide

/-- Claim C9: a rendered document is billable — it contains the
`<CustomerRef>` billing-target reference and the
`<BillableStatus>Billable</BillableStatus>` element — exactly when the
record's billing target is present and not the default `Shop` AND its
requires-billing flag is the explicit string `TRUE`; every record failing
that condition renders `<BillableStatus>NotBillable</BillableStatus>`. -/
theorem c9_billable_iff (e : Entry) :
    ((InfixOf "<CustomerRef>".data (buildTimeTrackingAddXML e).data ∧
      InfixOf "<BillableStatus>Billable</BillableStatus>".data
        (buildTimeTrackingAddXML e).data) ↔ billableCond e) ∧
    (¬billableCond e →
      InfixOf "<BillableStatus>NotBillable</BillableStatus>".data
        (buildTimeTrackingAddXML e).data) := by
  constructor
  · constructor
    · rintro ⟨h1, -⟩
      by_contra hnb
      have hfalse := hasLtC_build_false e hnb
      have htrue : hasLtC (buildTimeTrackingAddXML e).data = true :=
        hasLtC_of_infixOf "ustomerRef>".data _ h1
      rw [hfalse] at htrue
      exact Bool.noConfusion htrue
    · intro hc
      constructor
      · unfold buildTimeTrackingAddXML
        dsimp only
        rw [if_pos hc]
        simp only [String.data_append, List.append_assoc]
        apply infixOf_append_left
        apply infixOf_append_left
        apply infixOf_append_left
        apply infixOf_append_left
        apply infixOf_append_left
        apply infixOf_append_left
        apply infixOf_append_left
        apply infixOf_append_right
        exact ⟨"\n        ".data, "\n          <FullName>".data, by decide⟩
      · unfold buildTimeTrackingAddXML
        dsimp only
        rw [if_pos hc]
        simp only [String.data_append, List.append_assoc]
        apply infixOf_append_left
        apply infixOf_append_left
        apply infixOf_append_left
        apply infixOf_append_left
        apply infixOf_append_left
        apply infixOf_append_left
        apply infixOf_append_left
        apply infixOf_append_left
        apply infixOf_append_left
        apply infixOf_append_right
        exact ⟨"</FullName>\n        </CustomerRef>\n        ".data, [], by decide⟩
  · intro hnb
    unfold buildTimeTrackingAddXML
    dsimp only
    rw [if_neg hnb]
    simp only [String.data_append, List.append_assoc]
    apply infixOf_append_left
    apply infixOf_append_left
    apply infixOf_append_left
    apply infixOf_append_left
    apply infixOf_append_left
    apply infixOf_append_left
    apply infixOf_append_left
    apply infixOf_append_right
    exact ⟨"\n        ".data, [], by decide⟩

/-- Witness for `c9_billable_iff`: a record with a real billing target and
the explicit requires-billing flag renders the billing-target reference. -/
theorem c9_billable_iff_witness :
    billableCond ⟨"D", "Dana", ⟨2026, 2, 1⟩, "Acme", "", "TRUE", 1, ""⟩ ∧
    InfixOf "<CustomerRef>".data
      (buildTimeTrackingAddXML ⟨"D", "Dana", ⟨2026, 2, 1⟩, "Acme", "", "TRUE", 1, ""⟩).data := by
  refine ⟨by decide, ?_⟩
  exact ((c9_billable_iff ⟨"D", "Dana", ⟨2026, 2, 1⟩, "Acme", "", "TRUE", 1, ""⟩).1.mpr
    (by decide)).1
